import Mathlib

/-!
Verification development for the textured-quad draw-op module
(`src/gpu/ops/GrTextureOp.cpp`).

The C++ code is shallowly embedded over exact rationals (`ℚ`).  SIMD
four-lane vectors (`Sk4f`) become functions `Fin 4 → ℚ`; the lane
shuffles `SkNx_shuffle<...>` become explicit index permutations.  The
only non-algebraic numeric primitive used by the embedded code,
`Sk4f::rsqrt`, is modelled by an explicit parameter `il : Fin 4 → ℚ`
(the per-edge inverse lengths); its defining property — positivity on
non-degenerate edges — appears as a hypothesis where needed.  Stateful
buffer writes become pure functions returning the written values, and
fatal assertions (`SkASSERT`/`SK_ABORT`) become `Option` results.
-/

/-- Four-lane vector of rationals, the embedding of `Sk4f`. -/
abbrev V4 := Fin 4 → ℚ

/-- Build a four-lane vector from its four lanes. -/
def fin4 {α : Type} (a b c d : α) : Fin 4 → α := fun i =>
  if i.val = 0 then a else if i.val = 1 then b else if i.val = 2 then c else d

/-- Lane permutation of `nextCCW`: `SkNx_shuffle<1, 3, 0, 2>`.  Lane `i` of
the shuffled vector holds lane `nextCCWIdx i` of the input, i.e. the
tri-strip corner counter-clockwise from corner `i`. -/
def nextCCWIdx : Fin 4 → Fin 4 := fin4 1 3 0 2

/-- Lane permutation of `nextCW`: `SkNx_shuffle<2, 0, 3, 1>`. -/
def nextCWIdx : Fin 4 → Fin 4 := fin4 2 0 3 1

/-- Unnormalized signed-area test of corner `j` against edge `i`
(the edge running from corner `i` to corner `nextCCWIdx i`).  This is
the common algebraic content of the edge equations computed by
`compute_quad_edges_and_outset_vertices` before scaling by the inverse
edge length. -/
def edgeRaw (x y : V4) (i j : Fin 4) : ℚ :=
  (y (nextCCWIdx i) - y i) * x j - (x (nextCCWIdx i) - x i) * y j
    + (x (nextCCWIdx i) * y i - y (nextCCWIdx i) * x i)

/-- Embedding of `xdiff *= invLengths` in
`compute_quad_edges_and_outset_vertices`: the normalized x-component of
edge `i`'s direction vector. -/
def e_xdiff (x il : V4) (i : Fin 4) : ℚ := (x (nextCCWIdx i) - x i) * il i

/-- Embedding of `ydiff *= invLengths`. -/
def e_ydiff (y il : V4) (i : Fin 4) : ℚ := (y (nextCCWIdx i) - y i) * il i

/-- Embedding of `*c = fma(xnext, *y, -ynext * *x) * invLengths`. -/
def e_c0 (x y il : V4) (i : Fin 4) : ℚ :=
  (x (nextCCWIdx i) * y i - y (nextCCWIdx i) * x i) * il i

/-- Embedding of `test = fma(ydiff, nextCW(*x), fma(-xdiff, nextCW(*y), *c))`:
the tentative edge equation for edge `i` evaluated at the clockwise-adjacent
corner. -/
def e_test (x y il : V4) (i : Fin 4) : ℚ :=
  e_ydiff y il i * x (nextCWIdx i) + (-(e_xdiff x il i) * y (nextCWIdx i) + e_c0 x y il i)

/-- Embedding of `(test < Sk4f(0)).anyTrue()`: whether all four edge
equations get negated to make their normals face into the quad. -/
def negateEdges (x y il : V4) : Bool := decide (∃ i, e_test x y il i < 0)

/-- The `a` coefficients on output of
`compute_quad_edges_and_outset_vertices` (after the winding fix-up). -/
def edgeA (x y il : V4) (i : Fin 4) : ℚ :=
  if negateEdges x y il then -(e_ydiff y il i) else e_ydiff y il i

/-- The `b` coefficients on output (after the winding fix-up). -/
def edgeB (x y il : V4) (i : Fin 4) : ℚ :=
  if negateEdges x y il then e_xdiff x il i else -(e_xdiff x il i)

/-- The `c` coefficients on output: winding fix-up, then `*c += 0.5f`,
then — only when the AA mask is not `kAll` — the extra `*c += (1.f - mask)`
that makes non-AA edges evaluate at least `1` larger. -/
def edgeC (aa : Fin 4 → Bool) (x y il : V4) (i : Fin 4) : ℚ :=
  ((if negateEdges x y il then -(e_c0 x y il i) else e_c0 x y il i) + 1/2)
    + (if ∀ k, aa k = true then 0 else 1 - (if aa i then 1 else 0))

/-- Embedding of `mask *= 0.5f` (the per-edge vertex-outset half amounts;
disabled edges contribute `0` here and a full-pixel amount through the
adjacent lanes). -/
def mask05 (aa : Fin 4 → Bool) (i : Fin 4) : ℚ := (if aa i then 1 else 0) * (1/2)

/-- Texture-coordinate difference along edge `i`: `nextCCW(*u) - *u`. -/
def udiffF (u : V4) (i : Fin 4) : ℚ := u (nextCCWIdx i) - u i

/-- Outset positions (the `*x += ...` updates), per lane.  The branch on
the AA mask mirrors the `aaFlags != GrQuadAAFlags::kAll` / `else if`
structure of the source; when `outsetCorners` is false the positions
pass through unchanged. -/
def outsetPos (aa : Fin 4 → Bool) (x il : V4) (oc : Bool) (i : Fin 4) : ℚ :=
  if ∀ k, aa k = true then
    if oc then x i + (1/2) * (-(e_xdiff x il i) + e_xdiff x il (nextCWIdx i)) else x i
  else
    if oc then
      x i + mask05 aa (nextCWIdx i) * (-(e_xdiff x il i))
          + mask05 aa i * e_xdiff x il (nextCWIdx i)
    else x i

/-- Outset texture coordinates (the `*u += ...` updates), per lane. -/
def outsetTex (aa : Fin 4 → Bool) (u il : V4) (oc : Bool) (i : Fin 4) : ℚ :=
  if ∀ k, aa k = true then
    if oc then
      u i + ((1/2) * il i) * (-(udiffF u i))
          + ((1/2) * il (nextCWIdx i)) * udiffF u (nextCWIdx i)
    else u i
  else
    if oc then
      u i + (mask05 aa (nextCWIdx i) * il i) * (-(udiffF u i))
          + (mask05 aa i * il (nextCWIdx i)) * udiffF u (nextCWIdx i)
    else u i

/-- Output bundle of `compute_quad_edges_and_outset_vertices`: the four
edge equations `a`, `b`, `c` and the (possibly outset) positions and
texture coordinates. -/
structure EdgeOutsetResult where
  a : V4
  b : V4
  c : V4
  x : V4
  y : V4
  u : V4
  v : V4

/-- Embedding of `compute_quad_edges_and_outset_vertices`.  `x`, `y` are
the corner coordinates in tri-strip order, `il` the per-edge inverse
lengths (the `rsqrt` results), `aa` the per-edge AA mask in lane order
(left, bottom, top, right), `u`, `v` the texture coordinates, and `oc`
the `outsetCorners` flag. -/
def compute_quad_edges_and_outset_vertices (aa : Fin 4 → Bool) (x y il u v : V4)
    (oc : Bool) : EdgeOutsetResult where
  a := edgeA x y il
  b := edgeB x y il
  c := edgeC aa x y il
  x := outsetPos aa x il oc
  y := outsetPos aa y il oc
  u := outsetTex aa u il oc
  v := outsetTex aa v il oc

/-- Convexity of the corner cycle in tri-strip winding: every corner lies
(weakly) on one common side of every directed edge.  This is the
caller contract recorded in the data model (convex quad). -/
def ConvexWound (x y : V4) : Prop :=
  (∀ i j, 0 ≤ edgeRaw x y i j) ∨ (∀ i j, edgeRaw x y i j ≤ 0)

/-- Non-degeneracy of the quad: the winding-test corner of each edge is
strictly off that edge. -/
def NondegenerateWound (x y : V4) : Prop :=
  ∀ i, edgeRaw x y i (nextCWIdx i) ≠ 0

-- Concrete unit-square witness data (corners TL, BL, TR, BR; unit edge
-- lengths, so the true inverse lengths are exactly 1).
def wX : V4 := fin4 0 0 1 1
def wY : V4 := fin4 0 1 0 1
def wIl : V4 := fun _ => 1
def wAA : Fin 4 → Bool := fin4 true false true false

/-! ## Enumerations and small data types shared by the op model -/

/-- Embedding of `GrAAType`. -/
inductive AAType where
  | kNone
  | kCoverage
  | kMSAA
  | kMixedSamples
deriving DecidableEq, Fintype

/-- Embedding of `GrSamplerState::Filter`. -/
inductive FilterMode where
  | kNearest
  | kBilerp
  | kMipMap
deriving DecidableEq

/-- Embedding of `GrSurfaceOrigin` (only the two values the file uses). -/
inductive Origin where
  | kTopLeft
  | kBottomLeft
deriving DecidableEq

/-- Embedding of `SkCanvas::SrcRectConstraint`. -/
inductive SrcRectConstraint where
  | kStrict
  | kFast
deriving DecidableEq

/-- Embedding of `GrQuadAAFlags` as four named bits. -/
structure QuadAAFlags where
  left : Bool
  top : Bool
  right : Bool
  bottom : Bool
deriving DecidableEq, Fintype

/-- No edge antialiased (`GrQuadAAFlags::kNone`). -/
def QuadAAFlags.allOff : QuadAAFlags := ⟨false, false, false, false⟩

/-- All edges antialiased (`GrQuadAAFlags::kAll`). -/
def QuadAAFlags.allOn : QuadAAFlags := ⟨true, true, true, true⟩

/-- Embedding of `SkRect` over exact rationals. -/
structure RectQ where
  l : ℚ
  t : ℚ
  r : ℚ
  b : ℚ
deriving DecidableEq

/-- Embedding of `GrPerspQuad`: four corners in tri-strip order, each with
homogeneous coordinates (x, y, w). -/
structure PerspQuadQ where
  x : Fin 4 → ℚ
  y : Fin 4 → ℚ
  w : Fin 4 → ℚ

/-- Model of a `GrTextureProxy` as the identity data the op logic reads: a
stable unique id, a pixel config and a texture type. -/
structure ProxyM where
  uid : ℕ
  config : ℕ
  texType : ℕ
deriving DecidableEq, Inhabited

/-- Embedding of `TextureOp::Quad` (one draw entry). -/
structure QuadE where
  srcRect : RectQ
  quad : PerspQuadQ
  color : ℕ
  hasDomain : Bool
  aaFlags : QuadAAFlags

/-- Embedding of `GrRenderTargetContext::TextureSetEntry`. -/
structure TextureSetEntry where
  proxy : ProxyM
  srcRect : RectQ
  dstRect : RectQ
  aaFlags : QuadAAFlags

/-- Modelled from the spec: the view transform (`SkMatrix`, outside src/)
is an external collaborator.  It is abstracted as the quad each
destination rect maps to, together with its `rectStaysRect` and
`hasPerspective` predicates, which is exactly the interface the op code
consumes. -/
structure MatrixM where
  mapRect : RectQ → PerspQuadQ
  rectStaysRect : Bool
  hasPerspective : Bool

/-- Embedding of the op state the combine / batching logic reads and
writes: color-space transform identities, filter, AA state, the flag
bits, the entry list, the proxy groups (`fProxies[p] = {proxy, quadCnt}`
with `fProxyCnt` the list length), the bounds, and whether the op is
already chained to a sibling. -/
structure OpModel where
  texXform : ℕ
  paintXform : ℕ
  filter : FilterMode
  aaType : AAType
  perspective : Bool
  domain : Bool
  quads : List QuadE
  proxies : List (ProxyM × ℕ)
  bounds : RectQ
  chained : Bool

/-- Embedding of `GrOp::CombineResult`; `kMerged` carries the updated
receiving op. -/
inductive CombineResult where
  | kMerged : OpModel → CombineResult
  | kMayChain : CombineResult
  | kCannotCombine : CombineResult

/-! ## Scalar helpers -/

/-- Embedding of `SkScalarIsInt`: the scalar equals its floor. -/
def SkScalarIsInt (x : ℚ) : Bool := decide (x = (⌊x⌋ : ℚ))

/-- Embedding of `SkScalarFraction`: the scalar minus its truncation
toward zero. -/
def SkScalarFraction (x : ℚ) : ℚ := x - (if 0 ≤ x then (⌊x⌋ : ℚ) else (⌈x⌉ : ℚ))

/-- Embedding of `aa_has_effect_for_rect_stays_rect`: true when any of the
two tested corners' coordinates is not integer aligned. -/
def aa_has_effect_for_rect_stays_rect (q : PerspQuadQ) : Bool :=
  !SkScalarIsInt (q.x 0) || !SkScalarIsInt (q.x 3)
    || !SkScalarIsInt (q.y 0) || !SkScalarIsInt (q.y 3)

/-- Embedding of `filter_has_effect_for_rect_stays_rect`. -/
def filter_has_effect_for_rect_stays_rect (q : PerspQuadQ) (srcRect : RectQ) : Bool :=
  decide (q.x 3 - q.x 0 ≠ srcRect.r - srcRect.l)
    || decide (q.y 3 - q.y 0 ≠ srcRect.b - srcRect.t)
    || decide (SkScalarFraction (q.x 0) ≠ SkScalarFraction srcRect.l)
    || decide (SkScalarFraction (q.y 0) ≠ SkScalarFraction srcRect.t)

/-! ## Single-draw constructor: AA-state normalization -/

/-- The `switch (aaType)` at the top of the single-quad `TextureOp`
constructor; `kMixedSamples` hits `SK_ABORT` and is modelled as `none`. -/
def resolveAAStep1 (aaType : AAType) (aaFlags : QuadAAFlags) : Option (AAType × QuadAAFlags) :=
  match aaType with
  | AAType.kNone => some (AAType.kNone, QuadAAFlags.allOff)
  | AAType.kCoverage =>
    some (if aaFlags = QuadAAFlags.allOff then AAType.kNone else AAType.kCoverage, aaFlags)
  | AAType.kMSAA => some (AAType.kMSAA, QuadAAFlags.allOn)
  | AAType.kMixedSamples => none

/-- The single-quad constructor's AA normalization with the
`aa_has_effect_for_rect_stays_rect` test abstracted to a boolean: the
initial switch followed by the `rectStaysRect` coverage downgrade. -/
def resolveSingleAACore (aaType : AAType) (aaFlags : QuadAAFlags)
    (rectStaysRect aaHasEffect : Bool) : Option (AAType × QuadAAFlags) :=
  match resolveAAStep1 aaType aaFlags with
  | none => none
  | some (t, f) =>
    if rectStaysRect = true ∧ t = AAType.kCoverage ∧ aaHasEffect = false
    then some (AAType.kNone, QuadAAFlags.allOff)
    else some (t, f)

/-- The AA state (`fAAType`, per-quad `aaFlags`) the single-quad
`TextureOp` constructor stores, as a function of the requested AA type,
the requested per-edge flags, the transform's `rectStaysRect` bit and
the mapped destination quad. -/
def resolveSingleDrawAA (aaType : AAType) (aaFlags : QuadAAFlags) (rectStaysRect : Bool)
    (quad : PerspQuadQ) : Option (AAType × QuadAAFlags) :=
  resolveSingleAACore aaType aaFlags rectStaysRect (aa_has_effect_for_rect_stays_rect quad)

/-! ## Flush-time vertex-layout selection -/

/-- Embedding of the `tessFnIdx` computation in `onPrepareDraws`: bit 0 is
coverage AA, bit 1 is domain, bit 2 is perspective. -/
def tessFnIdx (coverageAA domainYes hasPersp : Bool) : ℕ :=
  (if coverageAA then 1 else 0)
    ||| ((if domainYes then 2 else 0) ||| (if hasPersp then 4 else 0))

/-- Whether the vertex layout selected by an index carries the four
per-vertex edge-equation attributes: exactly the odd rows of
`kTessFnsAndVertexSizes` (the `GrAA::kYes` vertex structs). -/
def layoutHasAAEdges (idx : ℕ) : Bool := idx.testBit 0

/-- Whether the vertex layout carries the domain-rect attribute: the rows
with bit 1 set (the `Domain::kYes` vertex structs). -/
def layoutHasDomain (idx : ℕ) : Bool := idx.testBit 1

/-- The layout index a single, unchained op resolves at flush: the
`ChainRange` loop in `onPrepareDraws` degenerates to the op's own
coverage-AA, domain and perspective bits. -/
def singleOpTessFnIdx (op : OpModel) : ℕ :=
  tessFnIdx (decide (op.aaType = AAType.kCoverage)) op.domain op.perspective

/-! ## Rect and bounds helpers -/

/-- Modelled from the spec: GrOp::joinBounds and
SkRect::joinPossiblyEmptyRect (both outside src/) union bounding boxes
componentwise. -/
def joinRect (a b : RectQ) : RectQ :=
  ⟨min a.l b.l, min a.t b.t, max a.r b.r, max a.b b.b⟩

/-- Exact value of the single-precision float maximum, the embedding of
SK_ScalarMax. -/
def kScalarMax : ℚ := (2 ^ 24 - 1) * 2 ^ 104

/-- Modelled from the spec: SkRectPriv::MakeLargestInverted (outside
src/), the identity of the componentwise join. -/
def largestInvertedRect : RectQ := ⟨kScalarMax, kScalarMax, -kScalarMax, -kScalarMax⟩

/-- Modelled from the spec: GrPerspQuad::bounds (outside src/) returns
the axis-aligned box enclosing the perspective-divided corners. -/
def quadBounds (q : PerspQuadQ) : RectQ :=
  ⟨min (min (q.x 0 / q.w 0) (q.x 1 / q.w 1)) (min (q.x 2 / q.w 2) (q.x 3 / q.w 3)),
   min (min (q.y 0 / q.w 0) (q.y 1 / q.w 1)) (min (q.y 2 / q.w 2) (q.y 3 / q.w 3)),
   max (max (q.x 0 / q.w 0) (q.x 1 / q.w 1)) (max (q.x 2 / q.w 2) (q.x 3 / q.w 3)),
   max (max (q.y 0 / q.w 0) (q.y 1 / q.w 1)) (max (q.y 2 / q.w 2) (q.y 3 / q.w 3))⟩

/-- Embedding of the `TextureOp::Quad` constructor: the domain bit records
whether the entry was created with the strict constraint. -/
def mkQuadEntry (srcRect : RectQ) (quad : PerspQuadQ) (aaFlags : QuadAAFlags)
    (constraint : SrcRectConstraint) (color : ℕ) : QuadE :=
  { srcRect := srcRect, quad := quad, color := color,
    hasDomain := decide (constraint = SrcRectConstraint.kStrict), aaFlags := aaFlags }

/-! ## Batched (TextureSetEntry) constructor -/

/-- The per-entry AA-flag resolution in the batched `TextureOp`
constructor (`switch (aaType)` in the entry loop).  `kMixedSamples` is
unreachable there — the construction as a whole aborts — and is mapped
to an arbitrary value. -/
def resolveBatchEntryAAFlags (aaType : AAType) (rectStaysRect : Bool) (quad : PerspQuadQ)
    (aaFlags : QuadAAFlags) : QuadAAFlags :=
  match aaType with
  | AAType.kNone => QuadAAFlags.allOff
  | AAType.kCoverage =>
    if rectStaysRect = true ∧ aaFlags ≠ QuadAAFlags.allOff
        ∧ aa_has_effect_for_rect_stays_rect quad = false
    then QuadAAFlags.allOff else aaFlags
  | AAType.kMSAA => QuadAAFlags.allOn
  | AAType.kMixedSamples => QuadAAFlags.allOff

/-- Embedding of the batched `TextureOp` constructor.  Every entry
produces its own proxy group of quad count 1, its quad entry is created
with the fast constraint, `needAA` looks at the original (unresolved)
entry flags, and the op-wide domain bit is hard-wired false.  The
`mustFilter` accumulation tests `filter != kNearest` against the
constructor argument, which the loop never changes, so it is hoisted. -/
def mkBatchedOp (entries : List TextureSetEntry) (filter : FilterMode) (color : ℕ)
    (aaType : AAType) (m : MatrixM) (texXform paintXform : ℕ) : Option OpModel :=
  if aaType = AAType.kMixedSamples then none
  else
    some
      { texXform := texXform
        paintXform := paintXform
        filter :=
          if (decide (filter ≠ FilterMode.kNearest)
              && entries.any fun e =>
                !m.rectStaysRect
                  || filter_has_effect_for_rect_stays_rect (m.mapRect e.dstRect) e.srcRect) = true
          then filter else FilterMode.kNearest
        aaType :=
          if (entries.any fun e => decide (e.aaFlags ≠ QuadAAFlags.allOff)) = true
          then aaType else AAType.kNone
        perspective := m.hasPerspective
        domain := false
        quads := entries.map fun e =>
          mkQuadEntry e.srcRect (m.mapRect e.dstRect)
            (resolveBatchEntryAAFlags aaType m.rectStaysRect (m.mapRect e.dstRect) e.aaFlags)
            SrcRectConstraint.kFast color
        proxies := entries.map fun e => (e.proxy, 1)
        bounds := entries.foldl
          (fun r e => joinRect r (quadBounds (m.mapRect e.dstRect))) largestInvertedRect
        chained := false }

/-! ## Combine -/

/-- The AA compatibility test at the top of `onCombineIfPossible`:
`none` refuses; `some upgrade` reports whether the merge must upgrade the
result to coverage AA. -/
def aaMergeCheck (a b : AAType) : Option Bool :=
  if a = b then some false
  else if (a = AAType.kCoverage ∧ b = AAType.kNone) ∨ (b = AAType.kCoverage ∧ a = AAType.kNone)
  then some true
  else none

/-- Embedding of `TextureOp::onCombineIfPossible`.  The two leading empty
matches are unreachable for ops built by the constructors, which always
hold at least one proxy group. -/
def onCombineIfPossible (t s : OpModel) (capsDynamicState : Bool) : CombineResult :=
  if t.texXform ≠ s.texXform then CombineResult.kCannotCombine
  else if t.paintXform ≠ s.paintXform then CombineResult.kCannotCombine
  else
    match aaMergeCheck t.aaType s.aaType with
    | none => CombineResult.kCannotCombine
    | some upgrade =>
      if t.filter ≠ s.filter then CombineResult.kCannotCombine
      else
        match t.proxies, s.proxies with
        | [], _ => CombineResult.kCannotCombine
        | _ :: _, [] => CombineResult.kCannotCombine
        | (tp, tcnt) :: trest, (sp, _scnt) :: _srest =>
          if 1 < t.proxies.length ∨ 1 < s.proxies.length ∨ tp.uid ≠ sp.uid ∨ s.chained = true
          then
            if tp.config = sp.config ∧ tp.texType = sp.texType ∧ capsDynamicState = true
            then CombineResult.kMayChain
            else CombineResult.kCannotCombine
          else
            CombineResult.kMerged
              { t with
                proxies := (tp, tcnt + s.quads.length) :: trest
                quads := t.quads ++ s.quads
                bounds := joinRect t.bounds s.bounds
                perspective := t.perspective || s.perspective
                domain := t.domain || s.domain
                aaType := if upgrade then AAType.kCoverage else t.aaType }

/-! ## Domain clamp (DomainAssigner, Domain::kYes specialization) -/

/-- The large inert clamp rect (`kLargeRect`) returned when no domain is
required. -/
def kLargeRect : RectQ := ⟨-2, -2, 2, 2⟩

/-- Lane permutation of `SkNx_shuffle<2, 3, 0, 1>`. -/
def shuffleRBLT : Fin 4 → Fin 4 := fin4 2 3 0 1

/-- Lane permutation of `SkNx_shuffle<0, 3, 2, 1>`. -/
def shuffleFlip : Fin 4 → Fin 4 := fin4 0 3 2 1

/-- Embedding of `DomainAssigner<V, Domain::kYes>::Assign` (the computed
clamp rect; its replication to the four vertices is elided).  The lanes
hold (left, top, right, bottom). -/
def assignDomainRect (domain : Bool) (filter : FilterMode) (srcRect : RectQ) (origin : Origin)
    (iw ih : ℚ) : RectQ :=
  if domain then
    let ltrb0 : V4 := fin4 srcRect.l srcRect.t srcRect.r srcRect.b
    let ltrb : V4 :=
      if filter = FilterMode.kBilerp then fun i =>
        if |ltrb0 (shuffleRBLT i) - ltrb0 i| < 1
        then (ltrb0 (shuffleRBLT i) + ltrb0 i) * (1 / 2)
        else ltrb0 i + fin4 (1 / 2 : ℚ) (1 / 2) (-(1 / 2)) (-(1 / 2)) i
      else ltrb0
    let scaled : V4 := fun i => ltrb i * fin4 iw ih iw ih i
    let flipped : V4 :=
      if origin = Origin.kBottomLeft then fun i =>
        fin4 (1 : ℚ) (-1) 1 (-1) (shuffleFlip i) * scaled (shuffleFlip i)
          + fin4 (0 : ℚ) 1 0 1 (shuffleFlip i)
      else scaled
    ⟨flipped 0, flipped 1, flipped 2, flipped 3⟩
  else kLargeRect

/-- The domain-clamp computation as the spec words it: no domain gives the
fixed large rect; otherwise, under bilinear filtering, each edge of the
source rect is inset by half a texel except that an axis whose extent is
below one texel snaps to its center; the result is scaled by the
reciprocal dimensions; and a bottom-up storage origin flips the vertical
axis (v becomes 1 - v) re-sorting top and bottom. -/
def domainRectSpec (domain : Bool) (filter : FilterMode) (srcRect : RectQ) (origin : Origin)
    (iw ih : ℚ) : RectQ :=
  if domain then
    let wid := |srcRect.r - srcRect.l|
    let hei := |srcRect.b - srcRect.t|
    let cx := (srcRect.l + srcRect.r) * (1 / 2)
    let cy := (srcRect.t + srcRect.b) * (1 / 2)
    let lft := if filter = FilterMode.kBilerp then (if wid < 1 then cx else srcRect.l + 1 / 2) else srcRect.l
    let rgt := if filter = FilterMode.kBilerp then (if wid < 1 then cx else srcRect.r - 1 / 2) else srcRect.r
    let top := if filter = FilterMode.kBilerp then (if hei < 1 then cy else srcRect.t + 1 / 2) else srcRect.t
    let bot := if filter = FilterMode.kBilerp then (if hei < 1 then cy else srcRect.b - 1 / 2) else srcRect.b
    if origin = Origin.kBottomLeft
    then ⟨lft * iw, 1 - bot * ih, rgt * iw, 1 - top * ih⟩
    else ⟨lft * iw, top * ih, rgt * iw, bot * ih⟩
  else ⟨-2, -2, 2, 2⟩

/-! ## Tessellation of one quad in the 2D, no-domain, no-AA layout -/

/-- Embedding of `TextureGeometryProcessor::Vertex<SkPoint, Domain::kNo,
GrAA::kNo>`. -/
structure VertexPosTex where
  pos : ℚ × ℚ
  color : ℕ
  tex : ℚ × ℚ

/-- Modelled from the spec: SkPointPriv::SetRectTriStrip (outside src/)
writes a rect's corners in tri-strip winding order (top-left,
bottom-left, top-right, bottom-right), which is also the fixed corner
order of the data model. -/
def setRectTriStrip (r : RectQ) : Fin 4 → ℚ × ℚ :=
  fin4 (r.l, r.t) (r.l, r.b) (r.r, r.t) (r.r, r.b)

/-- The normalized texture rect computed at the top of `tessellate_quad`,
including the bottom-up origin flip. -/
def texRectOf (srcRect : RectQ) (origin : Origin) (iw ih : ℚ) : RectQ :=
  let tr : RectQ := ⟨iw * srcRect.l, ih * srcRect.t, iw * srcRect.r, ih * srcRect.b⟩
  if origin = Origin.kBottomLeft then { tr with t := 1 - tr.t, b := 1 - tr.b } else tr

/-- Embedding of `tessellate_quad` instantiated at the 2D-position,
no-domain, no-AA vertex layout (`VertexAAHandler<V, GrAA::kNo, SkPoint>`
plus the flat color; `DomainAssigner<V, Domain::kNo>` writes nothing).
The buffer argument is the previous contents of the four vertices, which
the routine overwrites wholesale. -/
def tessellate_quad_2d (devQuad : PerspQuadQ) (aaFlags : QuadAAFlags) (srcRect : RectQ)
    (color : ℕ) (origin : Origin) (filter : FilterMode) (iw ih : ℚ) :
    (Fin 4 → VertexPosTex) → Fin 4 → VertexPosTex :=
  fun _vertices i =>
    { pos := (devQuad.x i, devQuad.y i)
      color := color
      tex := setRectTriStrip (texRectOf srcRect origin iw ih) i }

/-! ## Texture-reference lifecycle (finalize / destructor) -/

/-- The reference-lifecycle calls an op makes on a proxy, the collaborator
contract of the texture-proxy abstraction. -/
inductive RefEvent where
  | unref
  | addPendingRead
  | completedRead
deriving DecidableEq

/-- The lifecycle state the release paths read: the proxy slots
(`fProxies[0..fProxyCnt)`, as the ids of the referenced proxies) and the
`fFinalized` bit. -/
structure OpLife where
  proxies : List ℕ
  finalized : Bool

/-- Embedding of `TextureOp::finalize`: asserts the op was not finalized
before (modelled as `none`), sets the flag, and issues one
`addPendingRead` followed by one `unref` per proxy slot. -/
def finalizeOp (op : OpLife) : Option (OpLife × List (ℕ × RefEvent)) :=
  if op.finalized then none
  else
    some ({ op with finalized := true },
      op.proxies.flatMap fun p => [(p, RefEvent.addPendingRead), (p, RefEvent.unref)])

/-- Embedding of `TextureOp::~TextureOp`: per proxy slot, one
`completedRead` when finalized, otherwise one `unref`. -/
def destroyOp (op : OpLife) : List (ℕ × RefEvent) :=
  op.proxies.map fun p =>
    (p, if op.finalized then RefEvent.completedRead else RefEvent.unref)

/-- Modelled from the spec: the proxy's reference state as the collaborator
contract describes it — a strong reference count and a pending-read
count. -/
structure ProxyRefCount where
  refs : ℤ
  pending : ℤ
deriving DecidableEq

/-- Modelled from the spec: the effect of each lifecycle call on the
proxy's reference state. -/
def applyRefEvent (s : ProxyRefCount) : RefEvent → ProxyRefCount
  | RefEvent.unref => { s with refs := s.refs - 1 }
  | RefEvent.addPendingRead => { s with pending := s.pending + 1 }
  | RefEvent.completedRead => { s with pending := s.pending - 1 }

/-- All intermediate states reached while applying a list of lifecycle
events. -/
def refStates (s : ProxyRefCount) : List RefEvent → List ProxyRefCount
  | [] => []
  | e :: es => applyRefEvent s e :: refStates (applyRefEvent s e) es

/-- Starting from the single strong reference the op owns on one proxy
slot, the event list releases it exactly once and leaks nothing: no
intermediate count goes negative (no double release) and the final state
is fully released (no leak). -/
def BalancedRelease (evs : List RefEvent) : Prop :=
  evs.foldl applyRefEvent ⟨1, 0⟩ = (⟨0, 0⟩ : ProxyRefCount) ∧
    ∀ s ∈ refStates ⟨1, 0⟩ evs, 0 ≤ s.refs ∧ 0 ≤ s.pending

/-- The lifecycle events one proxy slot sees over the op's lifetime on
each of the two release paths. -/
def lifetimeSlotTrace (viaFinalize : Bool) : List RefEvent :=
  if viaFinalize
  then [RefEvent.addPendingRead, RefEvent.unref] ++ [RefEvent.completedRead]
  else [RefEvent.unref]

/-! ## Concrete data used by the closed witness and counterexample theorems -/

/-- Concrete quad: an axis-aligned rect mapped by the identity (w = 1). -/
def wQuad : PerspQuadQ := ⟨fin4 0 0 2 2, fin4 0 3 0 3, fun _ => 1⟩

/-- Concrete quad with integer-aligned corners. -/
def wIntQuad : PerspQuadQ := ⟨fin4 1 1 4 4, fin4 2 6 2 6, fun _ => 1⟩

/-- Concrete source rect. -/
def wSrc : RectQ := ⟨0, 0, 8, 4⟩

/-- Concrete initial vertex-buffer contents. -/
def wBuf : Fin 4 → VertexPosTex := fun _ => ⟨(0, 0), 0, (0, 0)⟩

/-- Concrete texture proxies: same pixel config and texture type,
different identities. -/
def pRed : ProxyM := ⟨1, 7, 3⟩

/-- Second concrete proxy sharing pRed's config and texture type. -/
def pBlue : ProxyM := ⟨2, 7, 3⟩

/-- Concrete draw entry. -/
def wQuadE : QuadE := mkQuadEntry ⟨0, 0, 1, 1⟩ wQuad QuadAAFlags.allOff SrcRectConstraint.kFast 5

/-- Concrete single-group op used as a combine partner. -/
def baseOp : OpModel :=
  { texXform := 0, paintXform := 0, filter := FilterMode.kBilerp, aaType := AAType.kCoverage,
    perspective := false, domain := false, quads := [wQuadE], proxies := [(pRed, 1)],
    bounds := ⟨0, 0, 1, 1⟩, chained := false }

/-- Concrete op holding two proxy groups. -/
def multiProxyOp : OpModel := { baseOp with proxies := [(pRed, 1), (pBlue, 1)] }

/-- Concrete AA-none op for the merge witness. -/
def opNoAA : OpModel :=
  { texXform := 4, paintXform := 6, filter := FilterMode.kBilerp, aaType := AAType.kNone,
    perspective := false, domain := false, quads := [wQuadE], proxies := [(pRed, 1)],
    bounds := ⟨0, 0, 1, 1⟩, chained := false }

/-- Concrete AA-coverage op for the merge witness. -/
def opCoverage : OpModel :=
  { opNoAA with
    aaType := AAType.kCoverage
    quads := [wQuadE, wQuadE]
    proxies := [(pRed, 2)]
    bounds := ⟨0, 0, 2, 2⟩ }

/-- Concrete batched entry. -/
def wEntry : TextureSetEntry := ⟨pRed, ⟨0, 0, 4, 4⟩, ⟨0, 0, 2, 2⟩, QuadAAFlags.allOff⟩

/-- Concrete identity-like transform model: a rect maps to its own
corners in tri-strip order with w = 1. -/
def wMatrix : MatrixM :=
  { mapRect := fun r => ⟨fin4 r.l r.l r.r r.r, fin4 r.t r.b r.t r.b, fun _ => 1⟩,
    rectStaysRect := true, hasPerspective := false }

/-- Fallback op value for Option.getD. -/
def defaultOp : OpModel :=
  ⟨0, 0, FilterMode.kNearest, AAType.kNone, false, false, [], [], ⟨0, 0, 0, 0⟩, false⟩

/-- The op the batched factory builds from one concrete entry. -/
def wBatchedOp : OpModel :=
  (mkBatchedOp [wEntry] FilterMode.kNearest 9 AAType.kNone wMatrix 0 0).getD defaultOp

/-- The op the batched factory builds from two consecutive entries
referencing the same texture. -/
def wBatchedOp2 : OpModel :=
  (mkBatchedOp [wEntry, wEntry] FilterMode.kNearest 9 AAType.kNone wMatrix 0 0).getD defaultOp

/-! ## Theorems -/

/-- Numeral coercion fact used to evaluate lane selects. -/
theorem finValZero : ((0 : Fin 4) : ℕ) = 0 := rfl

/-- Numeral coercion fact used to evaluate lane selects. -/
theorem finValOne : ((1 : Fin 4) : ℕ) = 1 := rfl

/-- Numeral coercion fact used to evaluate lane selects. -/
theorem finValTwo : ((2 : Fin 4) : ℕ) = 2 := rfl

/-- Numeral coercion fact used to evaluate lane selects. -/
theorem finValThree : ((3 : Fin 4) : ℕ) = 3 := rfl

/-- The winding test value for edge `i` is the inverse length times the
signed-area test of the clockwise-adjacent corner. -/
theorem e_test_eq (x y il : V4) (i : Fin 4) :
    e_test x y il i = il i * edgeRaw x y i (nextCWIdx i) := by
  unfold e_test e_ydiff e_xdiff e_c0 edgeRaw
  ring

/-- Evaluating the output edge equation `i` at corner `j` equals the
(possibly negated) scaled signed-area test plus the `0.5` outset plus the
disabled-edge extra. -/
theorem edge_eval_eq (aa : Fin 4 → Bool) (x y il : V4) (i j : Fin 4) :
    edgeA x y il i * x j + edgeB x y il i * y j + edgeC aa x y il i
      = (if negateEdges x y il then -(il i * edgeRaw x y i j) else il i * edgeRaw x y i j)
        + 1/2 + (if ∀ k, aa k = true then 0 else 1 - (if aa i then 1 else 0)) := by
  unfold edgeA edgeB edgeC e_ydiff e_xdiff e_c0 edgeRaw
  split_ifs <;> ring

/-- C1: for every convex, non-degenerate quad in tri-strip winding order
(with positive inverse edge lengths, the defining property of the
`rsqrt` results) and every 4-bit AA mask, the edge equations returned by
`compute_quad_edges_and_outset_vertices` evaluate at every original
corner to at least 0.5 on AA-enabled edges and at least 1.5 on
AA-disabled edges. -/
theorem edge_equations_coverage_bounds (x y il u v : V4) (aa : Fin 4 → Bool) (oc : Bool)
    (hil : ∀ i, 0 < il i) (hconv : ConvexWound x y) (hnd : NondegenerateWound x y)
    (i j : Fin 4) :
    (if aa i then (1 : ℚ)/2 else 3/2) ≤
      (compute_quad_edges_and_outset_vertices aa x y il u v oc).a i * x j
      + (compute_quad_edges_and_outset_vertices aa x y il u v oc).b i * y j
      + (compute_quad_edges_and_outset_vertices aa x y il u v oc).c i := by
  have hres : (compute_quad_edges_and_outset_vertices aa x y il u v oc).a i * x j
      + (compute_quad_edges_and_outset_vertices aa x y il u v oc).b i * y j
      + (compute_quad_edges_and_outset_vertices aa x y il u v oc).c i
      = edgeA x y il i * x j + edgeB x y il i * y j + edgeC aa x y il i := rfl
  rw [hres, edge_eval_eq]
  cases hneg : negateEdges x y il with
  | false =>
    have hnotex : ¬ ∃ k, e_test x y il k < 0 := by
      have h := hneg
      unfold negateEdges at h
      exact of_decide_eq_false h
    push_neg at hnotex
    have hposcw : ∀ k, 0 < edgeRaw x y k (nextCWIdx k) := by
      intro k
      have h1 : 0 ≤ il k * edgeRaw x y k (nextCWIdx k) := by
        rw [← e_test_eq]
        exact hnotex k
      have h2 : 0 ≤ edgeRaw x y k (nextCWIdx k) := by nlinarith [hil k]
      exact lt_of_le_of_ne h2 (Ne.symm (hnd k))
    have hraws : ∀ a b, 0 ≤ edgeRaw x y a b := by
      rcases hconv with h | h
      · exact h
      · exact absurd (h 0 (nextCWIdx 0)) (not_le.mpr (hposcw 0))
    have hterm : 0 ≤ il i * edgeRaw x y i j := mul_nonneg (hil i).le (hraws i j)
    simp only [hneg, Bool.false_eq_true, if_false]
    cases haai : aa i with
    | true =>
      simp only [haai, if_true]
      split_ifs <;> norm_num <;> linarith
    | false =>
      have hnall : ¬ ∀ k, aa k = true := fun hc => by simp [hc i] at haai
      simp only [haai, Bool.false_eq_true, if_false, if_neg hnall]
      linarith
  | true =>
    have hex : ∃ k, e_test x y il k < 0 := by
      have h := hneg
      unfold negateEdges at h
      exact of_decide_eq_true h
    obtain ⟨k, hk⟩ := hex
    rw [e_test_eq] at hk
    have hkneg : edgeRaw x y k (nextCWIdx k) < 0 := by nlinarith [hil k]
    have hraws : ∀ a b, edgeRaw x y a b ≤ 0 := by
      rcases hconv with h | h
      · exact absurd (h k (nextCWIdx k)) (not_le.mpr hkneg)
      · exact h
    have hterm : il i * edgeRaw x y i j ≤ 0 :=
      mul_nonpos_iff.mpr (Or.inl ⟨(hil i).le, hraws i j⟩)
    simp only [hneg, if_true]
    cases haai : aa i with
    | true =>
      simp only [haai, if_true]
      split_ifs <;> norm_num <;> linarith
    | false =>
      have hnall : ¬ ∀ k, aa k = true := fun hc => by simp [hc i] at haai
      simp only [haai, Bool.false_eq_true, if_false, if_neg hnall]
      linarith

/-- Closed instance of C1's theorem: the unit square (corners TL, BL, TR,
BR) with AA enabled on the left and top edges only, inverse edge lengths
exactly 1, evaluating edge 1 (the bottom, AA-disabled) at corner 2. -/
theorem edge_equations_coverage_bounds_witness :
    (if wAA 1 then (1 : ℚ)/2 else 3/2) ≤
      (compute_quad_edges_and_outset_vertices wAA wX wY wIl wX wY false).a 1 * wX 2
      + (compute_quad_edges_and_outset_vertices wAA wX wY wIl wX wY false).b 1 * wY 2
      + (compute_quad_edges_and_outset_vertices wAA wX wY wIl wX wY false).c 1 :=
  edge_equations_coverage_bounds wX wY wIl wX wY wAA false
    (fun _ => one_pos)
    (Or.inl (by
      intro a b
      fin_cases a <;> fin_cases b <;>
        norm_num [edgeRaw, nextCCWIdx, fin4, wX, wY,
          finValZero, finValOne, finValTwo, finValThree]))
    (by
      intro a
      fin_cases a <;>
        norm_num [NondegenerateWound, edgeRaw, nextCCWIdx, nextCWIdx, fin4, wX, wY,
          finValZero, finValOne, finValTwo, finValThree])
    1 2

/-- C6: the SIMD-lane domain-clamp computation of
`DomainAssigner<V, Domain::kYes>::Assign` agrees with the
specification's description: no domain gives the fixed large rect;
otherwise under bilinear filtering each edge insets by half a texel
unless the axis extent is below one texel (which snaps the axis to its
center), the result scales by the reciprocal texture dimensions, and a
bottom-up origin flips and re-sorts the vertical axis. -/
theorem domain_clamp_matches_spec (domain : Bool) (filter : FilterMode) (srcRect : RectQ)
    (origin : Origin) (iw ih : ℚ) :
    assignDomainRect domain filter srcRect origin iw ih
      = domainRectSpec domain filter srcRect origin iw ih := by
  cases domain with
  | false => simp [assignDomainRect, domainRectSpec, kLargeRect]
  | true =>
    cases origin <;> cases filter <;>
      simp [assignDomainRect, domainRectSpec, kLargeRect, fin4, shuffleRBLT, shuffleFlip,
        finValZero, finValOne, finValTwo, finValThree, RectQ.mk.injEq,
        abs_sub_comm srcRect.l srcRect.r, abs_sub_comm srcRect.t srcRect.b] <;>
      (try split_ifs) <;>
      (repeat' apply And.intro) <;>
      first
        | tauto
        | ring

/-- C8: tessellating a quad in the non-AA, non-domain, 2D-position
layout writes positions equal to the quad's four destination corners and
texture coordinates equal to the four normalized source-rect corners,
independent of the previous buffer contents; repeating the tessellation
writes the identical four vertices. -/
theorem tessellate_noaa_nodomain_passthrough (devQuad : PerspQuadQ) (aaFlags : QuadAAFlags)
    (srcRect : RectQ) (color : ℕ) (origin : Origin) (filter : FilterMode) (iw ih : ℚ)
    (buf : Fin 4 → VertexPosTex)
    (hw : ∀ i, devQuad.w i = 1) (haa : aaFlags = QuadAAFlags.allOff)
    (ho : origin = Origin.kTopLeft) :
    (∀ i, (tessellate_quad_2d devQuad aaFlags srcRect color origin filter iw ih buf i).pos
        = (devQuad.x i, devQuad.y i)) ∧
    (∀ i, (tessellate_quad_2d devQuad aaFlags srcRect color origin filter iw ih buf i).tex
        = (iw * (setRectTriStrip srcRect i).1, ih * (setRectTriStrip srcRect i).2)) ∧
    tessellate_quad_2d devQuad aaFlags srcRect color origin filter iw ih
        (tessellate_quad_2d devQuad aaFlags srcRect color origin filter iw ih buf)
      = tessellate_quad_2d devQuad aaFlags srcRect color origin filter iw ih buf := by
  refine ⟨fun i => rfl, fun i => ?_, rfl⟩
  subst ho
  fin_cases i <;>
    simp [tessellate_quad_2d, setRectTriStrip, texRectOf, fin4,
      finValZero, finValOne, finValTwo, finValThree]

/-- Closed instance of C8's theorem: the concrete quad and source rect,
reading back vertex 1's texture coordinates. -/
theorem tessellate_noaa_nodomain_passthrough_witness :
    (tessellate_quad_2d wQuad QuadAAFlags.allOff wSrc 5 Origin.kTopLeft FilterMode.kNearest
        (1/8) (1/4) wBuf 1).tex
      = ((1/8 : ℚ) * (setRectTriStrip wSrc 1).1, (1/4 : ℚ) * (setRectTriStrip wSrc 1).2) :=
  (tessellate_noaa_nodomain_passthrough wQuad QuadAAFlags.allOff wSrc 5 Origin.kTopLeft
    FilterMode.kNearest (1/8) (1/4) wBuf (fun _ => rfl) rfl rfl).2.1 1

/-- Helper: a layout index with the coverage-AA bit clear never selects a
vertex struct carrying edge-equation attributes. -/
theorem layout_no_aa_bit (d p : Bool) : layoutHasAAEdges (tessFnIdx false d p) = false := by
  cases d <;> cases p <;> rfl

/-- Helper: a layout index with the domain bit clear never selects a
vertex struct carrying the domain attribute. -/
theorem layout_no_domain_bit (c p : Bool) : layoutHasDomain (tessFnIdx c false p) = false := by
  cases c <;> cases p <;> rfl

/-- C7: under a rectStaysRect transform with integer-aligned mapped
corners, a requested coverage-AA mode normalizes to AA type none with
cleared per-edge flags, and the vertex layout then selected at flush for
the op alone carries no edge-equation attributes. -/
theorem coverage_aa_int_rect_resolves_none (aaFlags : QuadAAFlags) (q : PerspQuadQ)
    (hx0 : SkScalarIsInt (q.x 0) = true) (hx3 : SkScalarIsInt (q.x 3) = true)
    (hy0 : SkScalarIsInt (q.y 0) = true) (hy3 : SkScalarIsInt (q.y 3) = true) :
    resolveSingleDrawAA AAType.kCoverage aaFlags true q
        = some (AAType.kNone, QuadAAFlags.allOff) ∧
    ∀ domainBit perspBit : Bool,
      layoutHasAAEdges
          (tessFnIdx (decide (AAType.kNone = AAType.kCoverage)) domainBit perspBit)
        = false := by
  have heff : aa_has_effect_for_rect_stays_rect q = false := by
    simp [aa_has_effect_for_rect_stays_rect, hx0, hx3, hy0, hy3]
  constructor
  · unfold resolveSingleDrawAA resolveSingleAACore resolveAAStep1
    rw [heff]
    by_cases hf : aaFlags = QuadAAFlags.allOff <;> simp [hf]
  · intro d p
    cases d <;> cases p <;> rfl

/-- Closed instance of C7's theorem at the concrete integer-cornered
quad with all four edges requested AA. -/
theorem coverage_aa_int_rect_resolves_none_witness :
    resolveSingleDrawAA AAType.kCoverage QuadAAFlags.allOn true wIntQuad
      = some (AAType.kNone, QuadAAFlags.allOff) :=
  (coverage_aa_int_rect_resolves_none QuadAAFlags.allOn wIntQuad
    (by norm_num [SkScalarIsInt, wIntQuad, fin4, finValZero])
    (by norm_num [SkScalarIsInt, wIntQuad, fin4, finValZero, finValThree])
    (by norm_num [SkScalarIsInt, wIntQuad, fin4, finValZero])
    (by norm_num [SkScalarIsInt, wIntQuad, fin4, finValZero, finValThree])).1

/-- C10: the single-draw constructor's stored AA state is normalized: a
requested type of none clears the mask; MSAA forces the full mask;
coverage with an all-clear mask downgrades the type to none; and no
constructed op holds coverage AA together with an empty mask. -/
theorem single_op_aa_normalization :
    ∀ (t : AAType) (fl : QuadAAFlags) (rsr aaEff : Bool) (t' : AAType) (fl' : QuadAAFlags),
      resolveSingleAACore t fl rsr aaEff = some (t', fl') →
      ((t = AAType.kNone → t' = AAType.kNone ∧ fl' = QuadAAFlags.allOff) ∧
       (t = AAType.kMSAA → t' = AAType.kMSAA ∧ fl' = QuadAAFlags.allOn) ∧
       (t = AAType.kCoverage ∧ fl = QuadAAFlags.allOff → t' = AAType.kNone) ∧
       (t' = AAType.kCoverage → fl' ≠ QuadAAFlags.allOff)) := by
  decide

/-- Closed instance of C10's theorem: a coverage op that keeps coverage
AA holds a non-empty mask. -/
theorem single_op_aa_normalization_witness :
    QuadAAFlags.allOn ≠ QuadAAFlags.allOff :=
  (single_op_aa_normalization AAType.kCoverage QuadAAFlags.allOn false true
    AAType.kCoverage QuadAAFlags.allOn rfl).2.2.2 rfl

/-- C5: the two release paths selected by the finalized flag.  A
never-finalized op releases exactly the plain reference per proxy slot;
finalize converts each plain reference into a pending-read registration
(one addPendingRead plus one unref per slot), rejects a second call, and
destruction afterwards releases only the pending read.  On either path
each slot's event sequence, applied to the single owned reference,
releases it exactly once with no count ever negative and nothing
left over. -/
theorem finalize_destroy_release_discipline (ps : List ℕ) :
    destroyOp ⟨ps, false⟩ = ps.map (fun p => (p, RefEvent.unref)) ∧
    finalizeOp ⟨ps, false⟩
      = some (⟨ps, true⟩,
          ps.flatMap fun p => [(p, RefEvent.addPendingRead), (p, RefEvent.unref)]) ∧
    destroyOp ⟨ps, true⟩ = ps.map (fun p => (p, RefEvent.completedRead)) ∧
    finalizeOp ⟨ps, true⟩ = none ∧
    BalancedRelease (lifetimeSlotTrace false) ∧
    BalancedRelease (lifetimeSlotTrace true) := by
  refine ⟨rfl, rfl, rfl, rfl, ?_, ?_⟩ <;>
    constructor <;>
    decide

/-- C2 (amended): the batched constructor creates exactly one proxy
group per entry, each with quad count 1 — consecutive same-texture
entries are not coalesced. -/
theorem batched_one_group_per_entry (entries : List TextureSetEntry) (filter : FilterMode)
    (color : ℕ) (aaType : AAType) (m : MatrixM) (tx px : ℕ) (op : OpModel)
    (h : mkBatchedOp entries filter color aaType m tx px = some op) :
    op.proxies = entries.map (fun e => (e.proxy, 1)) ∧
    op.proxies.length = entries.length := by
  unfold mkBatchedOp at h
  by_cases hmix : aaType = AAType.kMixedSamples
  · rw [if_pos hmix] at h
    exact absurd h (by simp)
  · rw [if_neg hmix] at h
    obtain rfl := Option.some.inj h
    exact ⟨rfl, by simp⟩

/-- Closed instance of C2's theorem: the two-entry batch against one
texture yields one group per entry. -/
theorem batched_one_group_per_entry_witness :
    wBatchedOp2.proxies = [(pRed, 1), (pRed, 1)] :=
  (batched_one_group_per_entry [wEntry, wEntry] FilterMode.kNearest 9 AAType.kNone wMatrix 0 0
    wBatchedOp2 rfl).1.trans rfl

/-- Counterexample to C2 as stated: a batch of 2 consecutive entries
against one texture yields 2 proxy groups, not 1. -/
theorem batched_consecutive_coalescing_cex :
    (mkBatchedOp [wEntry, wEntry] FilterMode.kNearest 9 AAType.kNone wMatrix 0 0).map
        (fun op => op.proxies.length) = some 2 ∧ (2 : ℕ) ≠ 1 :=
  ⟨rfl, by decide⟩

/-- C9: every op built by the batched factory has its op-wide domain
flag false, every one of its entries carries the fast (non-strict)
constraint, and the vertex layout the op selects at flush on its own
carries no domain attribute. -/
theorem batched_op_domain_flag_false (entries : List TextureSetEntry) (filter : FilterMode)
    (color : ℕ) (aaType : AAType) (m : MatrixM) (tx px : ℕ) (op : OpModel)
    (h : mkBatchedOp entries filter color aaType m tx px = some op) :
    op.domain = false ∧
    (op.quads.all fun q => !q.hasDomain) = true ∧
    layoutHasDomain (singleOpTessFnIdx op) = false := by
  unfold mkBatchedOp at h
  by_cases hmix : aaType = AAType.kMixedSamples
  · rw [if_pos hmix] at h
    exact absurd h (by simp)
  · rw [if_neg hmix] at h
    obtain rfl := Option.some.inj h
    refine ⟨rfl, ?_, ?_⟩
    · simp [mkQuadEntry]
    · exact layout_no_domain_bit _ _

/-- Closed instance of C9's theorem at the one-entry concrete batch. -/
theorem batched_op_domain_flag_false_witness :
    wBatchedOp.domain = false ∧
    (wBatchedOp.quads.all fun q => !q.hasDomain) = true ∧
    layoutHasDomain (singleOpTessFnIdx wBatchedOp) = false :=
  batched_op_domain_flag_false [wEntry] FilterMode.kNearest 9 AAType.kNone wMatrix 0 0
    wBatchedOp rfl

/-- C4: two single-group ops on the same texture with equal transforms
and filters, one AA-none and one AA-coverage, merge into one op with
coverage AA, the receiver's entries followed by the argument's, unioned
bounds, and OR-ed perspective and domain bits. -/
theorem combine_none_coverage_merges (A B : OpModel) (caps : Bool) (p q : ProxyM) (na nb : ℕ)
    (h1 : A.texXform = B.texXform) (h2 : A.paintXform = B.paintXform)
    (h3 : A.filter = B.filter)
    (haa : (A.aaType = AAType.kNone ∧ B.aaType = AAType.kCoverage) ∨
           (A.aaType = AAType.kCoverage ∧ B.aaType = AAType.kNone))
    (hA : A.proxies = [(p, na)]) (hB : B.proxies = [(q, nb)])
    (huid : p.uid = q.uid) (hch : B.chained = false) :
    onCombineIfPossible A B caps
      = CombineResult.kMerged
          { A with
            proxies := [(p, na + B.quads.length)]
            quads := A.quads ++ B.quads
            bounds := joinRect A.bounds B.bounds
            perspective := A.perspective || B.perspective
            domain := A.domain || B.domain
            aaType := AAType.kCoverage } ∧
    (A.quads ++ B.quads).length = A.quads.length + B.quads.length := by
  have hmc : aaMergeCheck A.aaType B.aaType = some true := by
    rcases haa with ⟨ha, hb⟩ | ⟨ha, hb⟩ <;> simp [aaMergeCheck, ha, hb]
  refine ⟨?_, List.length_append _ _⟩
  unfold onCombineIfPossible
  simp [h1, h2, hmc, h3, hA, hB, huid, hch]

/-- Closed instance of C4's theorem at the concrete AA-none and
AA-coverage ops sharing one texture. -/
theorem combine_none_coverage_merges_witness :
    onCombineIfPossible opNoAA opCoverage true
      = CombineResult.kMerged
          { opNoAA with
            proxies := [(pRed, 1 + opCoverage.quads.length)]
            quads := opNoAA.quads ++ opCoverage.quads
            bounds := joinRect opNoAA.bounds opCoverage.bounds
            perspective := opNoAA.perspective || opCoverage.perspective
            domain := opNoAA.domain || opCoverage.domain
            aaType := AAType.kCoverage } :=
  (combine_none_coverage_merges opNoAA opCoverage true pRed pRed 1 2 rfl rfl rfl
    (Or.inl ⟨rfl, rfl⟩) rfl rfl rfl rfl).1

/-- C3 (amended): when either op holds more than one proxy group or the
argument op is already chained, combine never merges; it returns
may-chain exactly when the preliminary gates pass (equal color-space
transform identities, compatible AA types, equal filters, both ops
holding a proxy group) and the two first proxies share pixel config and
texture type with the backend supporting per-draw dynamic texture
binding — in every other case it returns cannot-combine. -/
theorem combine_shape_never_merges (t s : OpModel) (caps : Bool)
    (hshape : 1 < t.proxies.length ∨ 1 < s.proxies.length ∨ s.chained = true) :
    (∀ M, onCombineIfPossible t s caps ≠ CombineResult.kMerged M) ∧
    (onCombineIfPossible t s caps = CombineResult.kMayChain ↔
      t.texXform = s.texXform ∧ t.paintXform = s.paintXform ∧
      (aaMergeCheck t.aaType s.aaType).isSome = true ∧ t.filter = s.filter ∧
      t.proxies ≠ [] ∧ s.proxies ≠ [] ∧
      t.proxies.headI.1.config = s.proxies.headI.1.config ∧
      t.proxies.headI.1.texType = s.proxies.headI.1.texType ∧
      caps = true) := by
  have hnm : ∀ M, onCombineIfPossible t s caps ≠ CombineResult.kMerged M := by
    intro M
    unfold onCombineIfPossible
    by_cases h1 : t.texXform ≠ s.texXform
    · simp [h1]
    by_cases h2 : t.paintXform ≠ s.paintXform
    · simp [h1, h2]
    rcases haa : aaMergeCheck t.aaType s.aaType with _ | upgrade
    · simp [h1, h2, haa]
    by_cases h3 : t.filter ≠ s.filter
    · simp [h1, h2, haa, h3]
    rcases ht : t.proxies with _ | ⟨⟨tp, tcnt⟩, trest⟩
    · simp [h1, h2, haa, h3, ht]
    rcases hs : s.proxies with _ | ⟨⟨sp, scnt⟩, srest⟩
    · simp [h1, h2, haa, h3, ht, hs]
    rw [ht, hs] at hshape
    simp only [h1, h2, haa, h3, ht, hs]
    split_ifs <;> solve | simp | tauto
  refine ⟨hnm, ?_⟩
  unfold onCombineIfPossible
  by_cases h1 : t.texXform ≠ s.texXform
  · simp [h1]
  by_cases h2 : t.paintXform ≠ s.paintXform
  · simp [h1, h2]
  rcases haa : aaMergeCheck t.aaType s.aaType with _ | upgrade
  · simp [h1, h2, haa]
  by_cases h3 : t.filter ≠ s.filter
  · simp [h1, h2, haa, h3]
  rcases ht : t.proxies with _ | ⟨⟨tp, tcnt⟩, trest⟩
  · simp [h1, h2, haa, h3, ht]
  rcases hs : s.proxies with _ | ⟨⟨sp, scnt⟩, srest⟩
  · simp [h1, h2, haa, h3, ht, hs]
  rw [ht, hs] at hshape
  simp only [h1, h2, haa, h3, ht, hs, List.headI_cons]
  split_ifs <;> simp_all

/-- Closed instance of C3's amended theorem: the two-group op cannot be
merged into. -/
theorem combine_shape_never_merges_witness :
    onCombineIfPossible multiProxyOp baseOp true ≠ CombineResult.kMerged baseOp :=
  (combine_shape_never_merges multiProxyOp baseOp true (Or.inl (by decide))).1 baseOp

/-- Counterexample to C3 as stated: an op holding two proxy groups whose
first proxies share pixel config and texture type, against a dynamic-
texture-capable backend, yields may-chain rather than an outright
refusal. -/
theorem combine_shape_refusal_cex :
    onCombineIfPossible multiProxyOp baseOp true = CombineResult.kMayChain ∧
    1 < multiProxyOp.proxies.length :=
  ⟨rfl, by decide⟩
